import Mathlib

/-!
Shallow embedding of the peak-detection and cross-spectrum-alignment core of
GlycanDIAFinder (`src/GlycanDIAFinder.py`).

Modelling conventions: floating-point numbers become exact rationals (`ℚ`);
Python lists and numpy arrays become `List`; insertion-ordered Python dicts
become association lists with explicit update/append operations; `defaultdict`
accumulation loops become `List.foldl`.  Definitions whose doc comment says
"Specification wording" restate the natural-language specification and are
compared against the source-derived definitions in the theorems below; all
other definitions are translated directly from the Python source.
-/

namespace GlycanDIA

/-- Model of one spectrum record: retention time (`metadata["retention_time"]`),
scan number (`metadata["scan_number"]`), and the (m/z, intensity) peak list
(`spectrum.peaks.mz` / `spectrum.peaks.intensities`, index-aligned). -/
structure Spectrum where
  rt : ℚ
  scanNumber : ℤ
  peaks : List (ℚ × ℚ)
deriving DecidableEq, Repr

/-- The five fixed monomer masses (`const_list`, source line 510). -/
def const_list : List ℚ := [162.05282, 203.07937, 146.05791, 291.09542, 307.09033]

/-- Water mass, written inline in the source mass formulas (18.01056). -/
def water_mass : ℚ := 18.01056

/-- Translation of `sum(np.multiply(cpd_list, const_list))`. -/
def dotProd (a b : List ℚ) : ℚ := (List.zipWith (· * ·) a b).sum

/-- Target mass `df1` (source lines 515/519): positive polarity adds the adduct
term, negative polarity subtracts it; the whole numerator is divided by `z`. -/
def df1Calc (positive : Bool) (cpd_list : List ℚ) (adduct_mass addon_mass z : ℚ) : ℚ :=
  if positive then
    (dotProd cpd_list const_list + water_mass + adduct_mass * z + addon_mass) / z
  else
    (dotProd cpd_list const_list + water_mass - adduct_mass * z + addon_mass) / z

/-- Target mass `df2` (source lines 516/520): `df1`'s numerator plus the flat
isotope offset 1.0034, then divided by `z`. -/
def df2Calc (positive : Bool) (cpd_list : List ℚ) (adduct_mass addon_mass z : ℚ) : ℚ :=
  if positive then
    (dotProd cpd_list const_list + water_mass + adduct_mass * z + 1.0034 + addon_mass) / z
  else
    (dotProd cpd_list const_list + water_mass - adduct_mass * z + 1.0034 + addon_mass) / z

/-- Target mass `df3` (source lines 517/521): flat isotope offset 2.006. -/
def df3Calc (positive : Bool) (cpd_list : List ℚ) (adduct_mass addon_mass z : ℚ) : ℚ :=
  if positive then
    (dotProd cpd_list const_list + water_mass + adduct_mass * z + 2.006 + addon_mass) / z
  else
    (dotProd cpd_list const_list + water_mass - adduct_mass * z + 2.006 + addon_mass) / z

/-- Specification wording: `base = dot(composition, monomer_masses) + water + addon_mass`. -/
def baseSpec (cpd_list : List ℚ) (addon_mass : ℚ) : ℚ :=
  dotProd cpd_list const_list + water_mass + addon_mass

/-- Specification wording: `df1 = (base ± adduct_mass*z)/z`, sign by polarity. -/
def df1Spec (positive : Bool) (cpd_list : List ℚ) (adduct_mass addon_mass z : ℚ) : ℚ :=
  if positive then (baseSpec cpd_list addon_mass + adduct_mass * z) / z
  else (baseSpec cpd_list addon_mass - adduct_mass * z) / z

/-- Specification wording: `df2 = (base ± adduct_mass*z + 1.0034)/z`. -/
def df2Spec (positive : Bool) (cpd_list : List ℚ) (adduct_mass addon_mass z : ℚ) : ℚ :=
  if positive then (baseSpec cpd_list addon_mass + adduct_mass * z + 1.0034) / z
  else (baseSpec cpd_list addon_mass - adduct_mass * z + 1.0034) / z

/-- Specification wording: `df3 = (base ± adduct_mass*z + 2.006)/z`. -/
def df3Spec (positive : Bool) (cpd_list : List ℚ) (adduct_mass addon_mass z : ℚ) : ℚ :=
  if positive then (baseSpec cpd_list addon_mass + adduct_mass * z + 2.006) / z
  else (baseSpec cpd_list addon_mass - adduct_mass * z + 2.006) / z

/-- Intensity of the first peak of `s` whose m/z is within `delta` of the target
mass `df` — the `np.where(abs(df - mz_array) <= delta)[0]` lookup followed by
taking index 0 — or `none` when no peak matches.  (The source only warns when
several peaks match and always uses the first.) -/
def findDf (df delta : ℚ) (s : Spectrum) : Option ℚ :=
  (s.peaks.filter (fun p => decide (|df - p.1| ≤ delta))).head?.map Prod.snd

/-- The five result lists accumulated by the `search_ms1` scan loop. -/
structure Ms1Traces where
  rt_list : List ℚ
  scan_num_list : List ℤ
  df1_intensity_list : List ℚ
  df2_intensity_list : List ℚ
  df3_intensity_list : List ℚ
deriving DecidableEq, Repr

/-- One iteration of the `search_ms1` spectrum loop (source lines 554-692).
Flex mode records rt/scan number unconditionally and the matched `df1`
intensity, or the sentinel 1 when `df1` is absent; strict mode records the
three matched intensities only when all of `df1`,`df2`,`df3` are present in the
same spectrum, else the sentinel 1 for all three. -/
def searchMs1Step (flex_mode : Bool) (df1 df2 df3 delta_mz1 delta_mz2 delta_mz3 : ℚ)
    (t : Ms1Traces) (s : Spectrum) : Ms1Traces :=
  if flex_mode then
    match findDf df1 delta_mz1 s with
    | some i1 =>
        { t with rt_list := t.rt_list ++ [s.rt],
                 scan_num_list := t.scan_num_list ++ [s.scanNumber],
                 df1_intensity_list := t.df1_intensity_list ++ [i1] }
    | none =>
        { t with rt_list := t.rt_list ++ [s.rt],
                 scan_num_list := t.scan_num_list ++ [s.scanNumber],
                 df1_intensity_list := t.df1_intensity_list ++ [1] }
  else
    match findDf df1 delta_mz1 s, findDf df2 delta_mz2 s, findDf df3 delta_mz3 s with
    | some i1, some i2, some i3 =>
        { rt_list := t.rt_list ++ [s.rt],
          scan_num_list := t.scan_num_list ++ [s.scanNumber],
          df1_intensity_list := t.df1_intensity_list ++ [i1],
          df2_intensity_list := t.df2_intensity_list ++ [i2],
          df3_intensity_list := t.df3_intensity_list ++ [i3] }
    | _, _, _ =>
        { rt_list := t.rt_list ++ [s.rt],
          scan_num_list := t.scan_num_list ++ [s.scanNumber],
          df1_intensity_list := t.df1_intensity_list ++ [1],
          df2_intensity_list := t.df2_intensity_list ++ [1],
          df3_intensity_list := t.df3_intensity_list ++ [1] }

/-- Trace-building part of `search_ms1`: fold the spectrum loop over the
(already retention-time-filtered) MS1 spectrum list. -/
def search_ms1 (flex_mode : Bool) (df1 df2 df3 delta_mz1 delta_mz2 delta_mz3 : ℚ)
    (spectrums_ms1_list : List Spectrum) : Ms1Traces :=
  spectrums_ms1_list.foldl (searchMs1Step flex_mode df1 df2 df3 delta_mz1 delta_mz2 delta_mz3)
    ⟨[], [], [], [], []⟩

/-- The `df1` intensity recorded for one spectrum in flex mode: matched
intensity if found, else the sentinel 1. -/
def flexDf1Entry (df1 delta_mz1 : ℚ) (s : Spectrum) : ℚ :=
  match findDf df1 delta_mz1 s with
  | some i1 => i1
  | none => 1

/-- The (df1, df2, df3) intensities recorded for one spectrum in strict mode:
the matched triple when all three masses are present, else (1, 1, 1). -/
def strictEntries (df1 df2 df3 delta_mz1 delta_mz2 delta_mz3 : ℚ) (s : Spectrum) : ℚ × ℚ × ℚ :=
  match findDf df1 delta_mz1 s, findDf df2 delta_mz2 s, findDf df3 delta_mz3 s with
  | some i1, some i2, some i3 => (i1, i2, i3)
  | _, _, _ => (1, 1, 1)

/-- The `df1` intensity recorded for one spectrum, in either mode. -/
def df1Entry (flex_mode : Bool) (df1 df2 df3 delta_mz1 delta_mz2 delta_mz3 : ℚ)
    (s : Spectrum) : ℚ :=
  if flex_mode then flexDf1Entry df1 delta_mz1 s
  else (strictEntries df1 df2 df3 delta_mz1 delta_mz2 delta_mz3 s).1

/-- The `df2` intensity recorded for one spectrum in strict mode. -/
def df2EntryStrict (df1 df2 df3 delta_mz1 delta_mz2 delta_mz3 : ℚ) (s : Spectrum) : ℚ :=
  (strictEntries df1 df2 df3 delta_mz1 delta_mz2 delta_mz3 s).2.1

/-- The `df3` intensity recorded for one spectrum in strict mode. -/
def df3EntryStrict (df1 df2 df3 delta_mz1 delta_mz2 delta_mz3 : ℚ) (s : Spectrum) : ℚ :=
  (strictEntries df1 df2 df3 delta_mz1 delta_mz2 delta_mz3 s).2.2

/-- Per-charge invocation of `search_ms1` inside `align_peaks_matchms_batch`:
the three masses and their ppm tolerance windows (`ppm_ms1 * df / 1e6`,
source lines 531-533) are computed from the charge, then the scan loop runs. -/
def searchMs1Z (flex_mode positive : Bool) (cpd_list : List ℚ)
    (adduct_mass addon_mass ppm_ms1 : ℚ) (spectrums_ms1_list : List Spectrum) (z : ℤ) :
    Ms1Traces :=
  let df1 := df1Calc positive cpd_list adduct_mass addon_mass (z : ℚ)
  let df2 := df2Calc positive cpd_list adduct_mass addon_mass (z : ℚ)
  let df3 := df3Calc positive cpd_list adduct_mass addon_mass (z : ℚ)
  search_ms1 flex_mode df1 df2 df3 (ppm_ms1 * df1 / 1000000) (ppm_ms1 * df2 / 1000000)
    (ppm_ms1 * df3 / 1000000) spectrums_ms1_list

/-- Python `max` over a nonempty list, as a left fold; returns `0` on `[]`
(where Python raises — every use below is guarded by nonemptiness). -/
def maxList : List ℚ → ℚ
  | [] => 0
  | x :: xs => xs.foldl max x

/-- One iteration of the charge-selection loop of `align_peaks_matchms_batch`
(source lines 844-866): a charge whose `df1` (`dfOf z`) falls outside
`[min_mass, max_mass]` is skipped (`continue`); otherwise the running
`(max_intensity, z_fin)` pair is replaced when this charge's trace maximum
strictly exceeds the running maximum. -/
def selectChargeStep (dfOf : ℤ → ℚ) (traceOf : ℤ → List ℚ) (min_mass max_mass : ℚ)
    (acc : ℚ × ℤ) (z : ℤ) : ℚ × ℤ :=
  if dfOf z < min_mass ∨ max_mass < dfOf z then acc
  else
    let max_df1_intensity := maxList (traceOf z)
    if acc.1 < max_df1_intensity then (max_df1_intensity, z) else acc

/-- Charge-selection loop of `align_peaks_matchms_batch`, starting from
`max_intensity = 0`, `z_fin = 0` (source lines 830-866). -/
def selectCharge (charge_list : List ℤ) (dfOf : ℤ → ℚ) (traceOf : ℤ → List ℚ)
    (min_mass max_mass : ℚ) : ℚ × ℤ :=
  charge_list.foldl (selectChargeStep dfOf traceOf min_mass max_mass) (0, 0)

/-- The charge-selection stage of `align_peaks_matchms_batch` composed with the
per-charge `search_ms1` calls; the second component is `z_fin`, and the
`z_fin == 0` test at source line 868 is the `NoViableCharge` fatal branch. -/
def batchSelectCharge (flex_mode positive : Bool) (cpd_list : List ℚ)
    (adduct_mass addon_mass ppm_ms1 min_mass max_mass : ℚ) (charge_list : List ℤ)
    (spectrums_ms1_list : List Spectrum) : ℚ × ℤ :=
  selectCharge charge_list
    (fun z => df1Calc positive cpd_list adduct_mass addon_mass (z : ℚ))
    (fun z =>
      (searchMs1Z flex_mode positive cpd_list adduct_mass addon_mass ppm_ms1
        spectrums_ms1_list z).df1_intensity_list)
    min_mass max_mass

/-- One iteration of the `check_peaks_distance` dedup loop (source lines
225-235) at adjacent-pair position `i` of the original peak list.  The RT gap
is compared against the literal `0.2` that appears at source line 226 — not
against the `delta` parameter.  When the pair is too close, the peak with the
smaller smoothed intensity is removed from the retained set (ties drop the
earlier peak); removing an element that was already removed is a no-op. -/
def checkPeaksDistanceStep (peak_idx_list : List ℕ) (rt_list : List ℚ)
    (intensity_filt_arr : List ℚ) (retained : List ℕ) (i : ℕ) : List ℕ :=
  let peak_idx1 := peak_idx_list.getD i 0
  let peak_idx2 := peak_idx_list.getD (i + 1) 0
  let delta_rt_peak := rt_list.getD peak_idx2 0 - rt_list.getD peak_idx1 0
  let delta_intensity_peak :=
    intensity_filt_arr.getD peak_idx2 0 - intensity_filt_arr.getD peak_idx1 0
  if |delta_rt_peak| < 0.2 then
    if 0 ≤ delta_intensity_peak then retained.erase peak_idx1
    else retained.erase peak_idx2
  else retained

/-- Translation of `check_peaks_distance` (source lines 189-242): a single pass
over the adjacent pairs of the input peak list, removing losers from the
retained set, then the set is returned as a sorted list.  The `delta` parameter
is accepted (and documented) by the source but unused by its loop. -/
def check_peaks_distance (peak_idx_list : List ℕ) (rt_list : List ℚ)
    (intensity_filt_arr : List ℚ) (delta : ℚ) : List ℕ :=
  ((List.range (peak_idx_list.length - 1)).foldl
      (checkPeaksDistanceStep peak_idx_list rt_list intensity_filt_arr)
      peak_idx_list).insertionSort (· ≤ ·)

/-- Strict local maxima of the smoothed trace: the detection contract of the
`scipy.signal.find_peaks` call at source line 159, as documented by the
specification (§4.2 step 3: value strictly greater than both immediate
neighbours). -/
def findPeaksIdx (intensity_filt_arr : List ℚ) : List ℕ :=
  (List.range intensity_filt_arr.length).filter fun i =>
    decide (0 < i ∧ i + 1 < intensity_filt_arr.length ∧
      intensity_filt_arr.getD (i - 1) 0 < intensity_filt_arr.getD i 0 ∧
      intensity_filt_arr.getD (i + 1) 0 < intensity_filt_arr.getD i 0)

/-- Leftward prominence walk from sample index `i` with peak height `h`
(contract of `scipy.signal.peak_prominences`, specification §4.2 step 4):
track the minimum value seen until a sample strictly higher than the peak or
the left border stops the walk. -/
def leftScan (xs : List ℚ) (h : ℚ) : ℕ → ℚ → ℚ
  | 0, acc => if h < xs.getD 0 0 then acc else min acc (xs.getD 0 0)
  | i + 1, acc =>
      if h < xs.getD (i + 1) 0 then acc
      else leftScan xs h i (min acc (xs.getD (i + 1) 0))

/-- Left prominence baseline of the peak at index `p`. -/
def left_baseline (xs : List ℚ) (p : ℕ) : ℚ :=
  leftScan xs (xs.getD p 0) (p - 1) (xs.getD p 0)

/-- Rightward prominence walk: `j` is the current sample index, the fuel is the
number of samples remaining to the right border. -/
def rightScan (xs : List ℚ) (h : ℚ) : ℕ → ℕ → ℚ → ℚ
  | _, 0, acc => acc
  | j, fuel + 1, acc =>
      if h < xs.getD j 0 then acc
      else rightScan xs h (j + 1) fuel (min acc (xs.getD j 0))

/-- Right prominence baseline of the peak at index `p`. -/
def right_baseline (xs : List ℚ) (p : ℕ) : ℚ :=
  rightScan xs (xs.getD p 0) (p + 1) (xs.length - (p + 1)) (xs.getD p 0)

/-- The larger of the two prominence baselines (source line 175). -/
def max_baseline (xs : List ℚ) (p : ℕ) : ℚ :=
  max (left_baseline xs p) (right_baseline xs p)

/-- The peak-height floor `min_intensity = max(min_height, threshold *
max(smoothed))` (source lines 151-152). -/
def minIntensityOf (min_height threshold : ℚ) (xs : List ℚ) : ℚ :=
  max min_height (threshold * maxList xs)

/-- Peak-validation loop of `find_filter_peaks` (source lines 170-180): keep a
detected peak, and record its `max_baseline`, when its baseline ratio is at
least 2 and its smoothed height is at least `min_intensity`. -/
def filterPeaksStep (xs : List ℚ) (min_intensity : ℚ) (acc : List ℕ × List ℚ)
    (peak_idx : ℕ) : List ℕ × List ℚ :=
  let mb := max_baseline xs peak_idx
  if 2 ≤ xs.getD peak_idx 0 / mb ∧ min_intensity ≤ xs.getD peak_idx 0 then
    (acc.1 ++ [peak_idx], acc.2 ++ [mb])
  else acc

/-- The whole validation loop as a fold of `filterPeaksStep`. -/
def filterPeaksLoop (xs : List ℚ) (min_intensity : ℚ) (peak_idx_arr : List ℕ) :
    List ℕ × List ℚ :=
  peak_idx_arr.foldl (filterPeaksStep xs min_intensity) ([], [])

/-- The retained peak list `peak_idx_list2` of `find_filter_peaks`, before the
distance dedup stage. -/
def peakIdxList2 (xs : List ℚ) (min_height threshold : ℚ) : List ℕ :=
  (filterPeaksLoop xs (minIntensityOf min_height threshold xs) (findPeaksIdx xs)).1

/-- Translation of `find_filter_peaks` (source lines 119-187) downstream of the
Gaussian smoothing: `intensity_filt_arr` is the already-smoothed trace (the
claims quantify over the smoothed trace; the Gaussian kernel itself is an
external numeric routine).  Returns the deduplicated peak list, the smoothed
trace and the per-retained-peak baselines. -/
def find_filter_peaks (rt_list : List ℚ) (intensity_filt_arr : List ℚ)
    (min_height threshold delta : ℚ) : List ℕ × List ℚ × List ℚ :=
  let pb := filterPeaksLoop intensity_filt_arr
    (minIntensityOf min_height threshold intensity_filt_arr) (findPeaksIdx intensity_filt_arr)
  (check_peaks_distance pb.1 rt_list intensity_filt_arr delta, intensity_filt_arr, pb.2)

/-- Association-list model of a Python dict assignment `d[k] = v`: update in
place when the key exists (keeping its position), else append. -/
def updAssoc : List (ℚ × ℤ) → ℚ → ℤ → List (ℚ × ℤ)
  | [], k, v => [(k, v)]
  | (k0, v0) :: rest, k, v =>
      if k0 = k then (k0, v) :: rest else (k0, v0) :: updAssoc rest k v

/-- Association-list model of `defaultdict(list)` append `d[k].append(v)`. -/
def dictAppend {α : Type} : List (ℚ × List α) → ℚ → α → List (ℚ × List α)
  | [], k, v => [(k, [v])]
  | (k0, vs) :: rest, k, v =>
      if k0 = k then (k0, vs ++ [v]) :: rest else (k0, vs) :: dictAppend rest k v

/-- The per-spectrum `df_idx_dict` of `extract_info_ms2` (source lines 331-339):
for every enumerated (target mass, tolerance) pair, the first matching peak
index in the spectrum's m/z array, or -100 when no peak matches.  Note that an
entry is written in **both** branches, so the dict length equals the number of
distinct target masses whether or not they were found. -/
def buildDfIdxDict (df_ms2_list delta_mz_ms2_list : List ℚ) (mz_array : List ℚ) :
    List (ℚ × ℤ) :=
  (List.zip df_ms2_list delta_mz_ms2_list).foldl
    (fun d pr =>
      match (List.range mz_array.length).filter
          (fun j => decide (|pr.1 - mz_array.getD j 0| ≤ pr.2)) with
      | [] => updAssoc d pr.1 (-100)
      | j :: _ => updAssoc d pr.1 (j : ℤ))
    []

/-- The three `defaultdict(list)` accumulators returned by `extract_info_ms2`:
per-target-mass intensity, retention-time and scan-number traces. -/
structure Ms2Dicts where
  df_intensity_dict : List (ℚ × List ℚ)
  df_rt_dict : List (ℚ × List ℚ)
  df_scan_num_dict : List (ℚ × List ℤ)
deriving DecidableEq, Repr

/-- One iteration of the `extract_info_ms2` spectrum loop (source lines
324-357): build `df_idx_dict`, skip the spectrum when `len(df_idx_dict) <
df_cnt_min`, else append intensity/rt/scan-number entries for every target
mass whose recorded index is non-negative (i.e. was found). -/
def extractInfoMs2Step (df_ms2_list delta_mz_ms2_list : List ℚ) (df_cnt_min : ℕ)
    (acc : Ms2Dicts) (s : Spectrum) : Ms2Dicts :=
  let df_idx_dict := buildDfIdxDict df_ms2_list delta_mz_ms2_list (s.peaks.map Prod.fst)
  if df_idx_dict.length < df_cnt_min then acc
  else
    df_idx_dict.foldl
      (fun a pr =>
        if 0 ≤ pr.2 then
          { df_intensity_dict :=
              dictAppend a.df_intensity_dict pr.1 ((s.peaks.map Prod.snd).getD pr.2.toNat 0),
            df_rt_dict := dictAppend a.df_rt_dict pr.1 s.rt,
            df_scan_num_dict := dictAppend a.df_scan_num_dict pr.1 s.scanNumber }
        else a)
      acc

/-- Translation of `extract_info_ms2` (source lines 295-359).  The spectra
passed here are the ones selected by `spec_ms2_idx_list` (the source indexes
`spectrums_ms2_list` by that list; we pass the selected spectra directly).
The `assert(len(df_idx_arr) == 1)` ambiguous-match check is not modelled (no
claim concerns it); the first match is used. -/
def extract_info_ms2 (df_ms2_list delta_mz_ms2_list : List ℚ)
    (spectrums : List Spectrum) (df_cnt_min : ℕ) : Ms2Dicts :=
  spectrums.foldl (extractInfoMs2Step df_ms2_list delta_mz_ms2_list df_cnt_min) ⟨[], [], []⟩

/-- One inner iteration of the `find_aligned_peaks` loop (source lines
423-434): an MS2 peak (peak index, scan number, intensity) of one fragment is
appended to the aligned lists when its scan number is within
`delta_peak_scan_num` of the MS1 peak's scan number. -/
def alignOneStep (delta_peak_scan_num df_peak_scan_num_ms1 : ℤ)
    (acc : List ℕ × List ℚ) (pk : ℕ × ℤ × ℚ) : List ℕ × List ℚ :=
  if |df_peak_scan_num_ms1 - pk.2.1| ≤ delta_peak_scan_num then
    (acc.1 ++ [pk.1], acc.2 ++ [pk.2.2])
  else acc

/-- All (aligned MS2 peak index, aligned intensity) lists collected for one MS1
peak across all fragments (source lines 402-434).  Each fragment is its
index-aligned triple list (`df_peak_idx_ms2_dict[df]`,
`df_peak_scan_num_ms2_dict[df]`, `df_peak_intensity_dict[df]`), zipped. -/
def alignOne (delta_peak_scan_num : ℤ) (frags : List (List (ℕ × ℤ × ℚ)))
    (df_peak_scan_num_ms1 : ℤ) : List ℕ × List ℚ :=
  frags.foldl
    (fun acc frag => frag.foldl (alignOneStep delta_peak_scan_num df_peak_scan_num_ms1) acc)
    ([], [])

/-- Capped aggregation of the aligned intensities (source lines 437-442): when
the list is longer than the cap, sort descending and sum the first `cap`
entries, else sum everything. -/
def cappedSum (max_aligned_record_ms2 : ℕ) (l : List ℚ) : ℚ :=
  if max_aligned_record_ms2 < l.length then
    ((l.insertionSort (· ≥ ·)).take max_aligned_record_ms2).sum
  else l.sum

/-- Translation of `find_aligned_peaks` (source lines 362-448), one output row
per MS1 peak: (MS1 peak index, number of aligned (fragment, peak) pairs, capped
aggregated intensity).  MS1 peaks are (peak index, scan number) pairs; distinct
MS1 peaks have distinct indices (the source keys its result dicts by index). -/
def find_aligned_peaks (delta_peak_scan_num : ℤ) (max_aligned_record_ms2 : ℕ)
    (frags : List (List (ℕ × ℤ × ℚ))) (ms1_peaks : List (ℕ × ℤ)) : List (ℕ × ℕ × ℚ) :=
  ms1_peaks.map fun pr =>
    let al := alignOne delta_peak_scan_num frags pr.2
    (pr.1, al.1.length, cappedSum max_aligned_record_ms2 al.2)

/-- Specification wording: all (fragment, MS2 peak) pairs whose scan number is
within the margin of the MS1 peak's scan number, collected across all
fragments in order. -/
def alignedPairsSpec (delta_peak_scan_num : ℤ) (frags : List (List (ℕ × ℤ × ℚ)))
    (df_peak_scan_num_ms1 : ℤ) : List (ℕ × ℤ × ℚ) :=
  (frags.map fun frag =>
    frag.filter fun pk => decide (|df_peak_scan_num_ms1 - pk.2.1| ≤ delta_peak_scan_num)).flatten

/-- Specification wording: the sum of the `k` highest entries of `l`
(sorted descending, first `k` summed). -/
def topSum (k : ℕ) (l : List ℚ) : ℚ := ((l.insertionSort (· ≥ ·)).take k).sum

/-- One iteration of the `find_nearest_precursor_mz` scan (source lines
278-293): keep the key with the strictly smallest absolute difference to the
target `df`; `none` — the `prec_mz_nearest is None` state, where the source's
closing assert would fail — survives only over an empty key list. -/
def nearestStep (df : ℚ) (acc : Option (ℚ × ℚ)) (prec_mz : ℚ) : Option (ℚ × ℚ) :=
  match acc with
  | none => some (prec_mz, |prec_mz - df|)
  | some (_, delta_min) =>
      if |prec_mz - df| < delta_min then some (prec_mz, |prec_mz - df|) else acc

/-- The whole nearest-precursor scan as a fold of `nearestStep` (the running
pair is (nearest key so far, its delta); `none` models the initial
`prec_mz_nearest = None` with `delta_min = inf`, which the first key always
replaces). -/
def find_nearest_precursor_mz (df : ℚ) (prec_mz_keys : List ℚ) : Option ℚ :=
  (prec_mz_keys.foldl (nearestStep df) none).map Prod.fst

/-! Theorems.  Claim theorems are named `C1_…`–`C10_…`; the lemmas before them
are shared machinery. -/

/-- C6: for every composition vector, charge, adduct mass and polarity, the
source's mass formulas agree with the specification's `base`-centred formulas:
`base = dot(composition, monomer_masses) + water + addon_mass`,
`df1 = (base ± adduct_mass*z)/z`, and the isotope variants add the flat
numerator offsets 1.0034 and 2.006 (not scaled by charge) before dividing. -/
theorem C6_mass_formulas (positive : Bool) (cpd_list : List ℚ)
    (adduct_mass addon_mass z : ℚ) :
    df1Calc positive cpd_list adduct_mass addon_mass z =
      df1Spec positive cpd_list adduct_mass addon_mass z ∧
    df2Calc positive cpd_list adduct_mass addon_mass z =
      df2Spec positive cpd_list adduct_mass addon_mass z ∧
    df3Calc positive cpd_list adduct_mass addon_mass z =
      df3Spec positive cpd_list adduct_mass addon_mass z := by
  unfold df1Calc df2Calc df3Calc df1Spec df2Spec df3Spec baseSpec
  cases positive <;>
    · simp only [Bool.false_eq_true, if_false, if_true]
      refine ⟨?_, ?_, ?_⟩ <;> ring

/-- Reduction of `nearestStep` on a concrete running pair. -/
theorem nearestStep_some (df k a b : ℚ) :
    nearestStep df (some (a, b)) k =
      if |k - df| < b then some (k, |k - df|) else some (a, b) := rfl

/-- Fold invariant of the nearest-precursor scan: starting from a consistent
running pair, the result is a consistent pair whose key comes from the start
pair or the scanned keys, whose delta never grew, and which is minimal over
the scanned keys. -/
theorem nearestStep_fold (df : ℚ) :
    ∀ (ks : List ℚ) (pr : ℚ × ℚ), pr.2 = |pr.1 - df| →
      ∃ pr', ks.foldl (nearestStep df) (some pr) = some pr' ∧
        pr'.2 = |pr'.1 - df| ∧ (pr'.1 = pr.1 ∨ pr'.1 ∈ ks) ∧ pr'.2 ≤ pr.2 ∧
        ∀ q ∈ ks, pr'.2 ≤ |q - df| := by
  intro ks
  induction ks with
  | nil => exact fun pr h => ⟨pr, rfl, h, Or.inl rfl, le_refl _, by simp⟩
  | cons k ks ih =>
      rintro ⟨a, b⟩ h
      rw [List.foldl_cons, nearestStep_some]
      by_cases hk : |k - df| < b
      · rw [if_pos hk]
        obtain ⟨pr', h1, h2, h3, h4, h5⟩ := ih (k, |k - df|) rfl
        refine ⟨pr', h1, h2, ?_, ?_, ?_⟩
        · rcases h3 with h3 | h3
          · exact Or.inr (by simp [h3])
          · exact Or.inr (List.mem_cons_of_mem _ h3)
        · exact le_trans h4 (le_of_lt hk)
        · intro q hq
          rcases List.mem_cons.mp hq with rfl | hq
          · exact h4
          · exact h5 q hq
      · rw [if_neg hk]
        obtain ⟨pr', h1, h2, h3, h4, h5⟩ := ih (a, b) h
        refine ⟨pr', h1, h2, ?_, h4, ?_⟩
        · rcases h3 with h3 | h3
          · exact Or.inl h3
          · exact Or.inr (List.mem_cons_of_mem _ h3)
        · intro q hq
          rcases List.mem_cons.mp hq with rfl | hq
          · calc pr'.2 ≤ b := h4
              _ ≤ |q - df| := not_lt.mp hk
          · exact h5 q hq

/-- C5: `find_nearest_precursor_mz` fails (`EmptyPrecursorIndex`, the failing
assertion) exactly when the precursor-m/z mapping has no keys; on a non-empty
mapping it returns one precursor m/z value, drawn from the keys, whose absolute
difference to the target `df` is minimal over all keys. -/
theorem C5_nearest_precursor (df : ℚ) (prec_mz_keys : List ℚ) :
    (find_nearest_precursor_mz df prec_mz_keys = none ↔ prec_mz_keys = []) ∧
    ∀ p, find_nearest_precursor_mz df prec_mz_keys = some p →
      p ∈ prec_mz_keys ∧ ∀ q ∈ prec_mz_keys, |p - df| ≤ |q - df| := by
  cases prec_mz_keys with
  | nil =>
      refine ⟨iff_of_true rfl rfl, fun p hp => ?_⟩
      rw [find_nearest_precursor_mz] at hp
      simp at hp
  | cons k ks =>
      have hstep : (k :: ks).foldl (nearestStep df) none =
          ks.foldl (nearestStep df) (some (k, |k - df|)) := by
        rw [List.foldl_cons]; rfl
      obtain ⟨pr', h1, _h2, h3, h4, h5⟩ := nearestStep_fold df ks (k, |k - df|) rfl
      constructor
      · constructor
        · intro h
          rw [find_nearest_precursor_mz, hstep, h1] at h
          simp at h
        · intro h; cases h
      · intro p hp
        rw [find_nearest_precursor_mz, hstep, h1] at hp
        simp only [Option.map_some', Option.some.injEq] at hp
        subst hp
        refine ⟨?_, ?_⟩
        · rcases h3 with h3 | h3
          · rw [h3]; exact List.mem_cons_self _ _
          · exact List.mem_cons_of_mem _ h3
        · intro q hq
          have hd : pr'.2 = |pr'.1 - df| := _h2
          rcases List.mem_cons.mp hq with rfl | hq
          · exact hd ▸ h4
          · exact hd ▸ h5 q hq

/-- Witness for C5 at `df = 6`, keys `[5, 10]`. -/
theorem C5_nearest_precursor_witness :
    (5 : ℚ) ∈ [(5 : ℚ), 10] ∧ ∀ q ∈ [(5 : ℚ), 10], |(5 : ℚ) - 6| ≤ |q - 6| := by
  have h : find_nearest_precursor_mz 6 [5, 10] = some 5 := by
    norm_num [find_nearest_precursor_mz, nearestStep, abs]
  exact (C5_nearest_precursor 6 [5, 10]).2 5 h

/-- The validation loop appends exactly the peaks satisfying the retention
condition, in order, together with their baselines. -/
theorem filterPeaksLoop_fst (xs : List ℚ) (min_intensity : ℚ) :
    ∀ (peaks : List ℕ) (acc : List ℕ × List ℚ),
      (peaks.foldl (filterPeaksStep xs min_intensity) acc).1 =
        acc.1 ++ peaks.filter (fun p =>
          decide (2 ≤ xs.getD p 0 / max_baseline xs p ∧ min_intensity ≤ xs.getD p 0)) := by
  intro peaks
  induction peaks with
  | nil => intro acc; simp
  | cons p peaks ih =>
      intro acc
      rw [List.foldl_cons, ih, List.filter_cons]
      simp only [decide_eq_true_eq]
      unfold filterPeaksStep
      by_cases hp : 2 ≤ xs.getD p 0 / max_baseline xs p ∧ min_intensity ≤ xs.getD p 0
      · rw [if_pos hp, if_pos hp]
        simp
      · rw [if_neg hp, if_neg hp]

/-- C7: a detected local maximum `p` of the smoothed trace is retained by the
validation stage of `find_filter_peaks` if and only if
`smoothed[p] / max_baseline >= 2` and `smoothed[p] >= min_intensity`, where
`max_baseline` is the larger of the left and right prominence baselines and
`min_intensity = max(min_height, threshold * max(smoothed))`. -/
theorem C7_peak_validation (xs : List ℚ) (min_height threshold : ℚ) (p : ℕ) :
    p ∈ peakIdxList2 xs min_height threshold ↔
      p ∈ findPeaksIdx xs ∧
      2 ≤ xs.getD p 0 / max_baseline xs p ∧
      minIntensityOf min_height threshold xs ≤ xs.getD p 0 := by
  rw [peakIdxList2, filterPeaksLoop, filterPeaksLoop_fst]
  simp [List.mem_filter, and_assoc]

/-- The aligned-pair collection loop appends exactly the in-margin pairs'
MS2 peak indices and intensities, fragment by fragment, in order. -/
theorem alignOne_eq (delta_peak_scan_num : ℤ) (s : ℤ) :
    ∀ (frags : List (List (ℕ × ℤ × ℚ))) (acc : List ℕ × List ℚ),
      frags.foldl
          (fun acc frag => frag.foldl (alignOneStep delta_peak_scan_num s) acc) acc =
        (acc.1 ++ (alignedPairsSpec delta_peak_scan_num frags s).map Prod.fst,
         acc.2 ++ (alignedPairsSpec delta_peak_scan_num frags s).map (fun pk => pk.2.2)) := by
  have hfrag : ∀ (frag : List (ℕ × ℤ × ℚ)) (acc : List ℕ × List ℚ),
      frag.foldl (alignOneStep delta_peak_scan_num s) acc =
        (acc.1 ++ (frag.filter (fun pk => decide (|s - pk.2.1| ≤ delta_peak_scan_num))).map
            Prod.fst,
         acc.2 ++ (frag.filter (fun pk => decide (|s - pk.2.1| ≤ delta_peak_scan_num))).map
            (fun pk => pk.2.2)) := by
    intro frag
    induction frag with
    | nil => intro acc; simp
    | cons pk frag ih =>
        intro acc
        rw [List.foldl_cons, ih, List.filter_cons]
        simp only [decide_eq_true_eq]
        unfold alignOneStep
        by_cases hpk : |s - pk.2.1| ≤ delta_peak_scan_num
        · rw [if_pos hpk, if_pos hpk]
          simp
        · rw [if_neg hpk, if_neg hpk]
  intro frags
  induction frags with
  | nil => intro acc; simp [alignedPairsSpec]
  | cons frag frags ih =>
      intro acc
      rw [List.foldl_cons, ih, hfrag]
      simp [alignedPairsSpec, List.append_assoc]

/-- The source's capped aggregation equals the specification's top-K sum with
`k = min(length, cap)`. -/
theorem cappedSum_eq_topSum (cap : ℕ) (l : List ℚ) :
    cappedSum cap l = topSum (min l.length cap) l := by
  rw [cappedSum, topSum]
  by_cases h : cap < l.length
  · rw [if_pos h, Nat.min_eq_right (le_of_lt h)]
  · rw [if_neg h]
    rw [Nat.min_eq_left (not_lt.mp h)]
    rw [← List.length_insertionSort (· ≥ ·) l]
    rw [List.take_length]
    exact ((List.perm_insertionSort (· ≥ ·) l).sum_eq).symm

/-- C3: each output row of `find_aligned_peaks` carries the uncapped number of
aligned (fragment, MS2 peak) pairs within the scan-number margin as its
matched count, and the sum of the `min(matched_count, cap)` highest aligned
intensities as its aggregated intensity; in particular 10 aligned intensities
100,200,…,1000 with cap 3 give aggregated intensity 2700 and matched count 10. -/
theorem C3_aligned_peaks :
    (∀ (delta_peak_scan_num : ℤ) (max_aligned_record_ms2 : ℕ)
      (frags : List (List (ℕ × ℤ × ℚ))) (ms1_peaks : List (ℕ × ℤ)),
      find_aligned_peaks delta_peak_scan_num max_aligned_record_ms2 frags ms1_peaks =
        ms1_peaks.map (fun pr =>
          (pr.1, (alignedPairsSpec delta_peak_scan_num frags pr.2).length,
            topSum
              (min (alignedPairsSpec delta_peak_scan_num frags pr.2).length
                max_aligned_record_ms2)
              ((alignedPairsSpec delta_peak_scan_num frags pr.2).map (fun pk => pk.2.2))))) ∧
    find_aligned_peaks 100 3
        [[(0, 0, 100), (1, 0, 200), (2, 0, 300), (3, 0, 400), (4, 0, 500), (5, 0, 600),
          (6, 0, 700), (7, 0, 800), (8, 0, 900), (9, 0, 1000)]] [(0, 0)] =
      [(0, 10, 2700)] := by
  constructor
  · intro delta_peak_scan_num max_aligned_record_ms2 frags ms1_peaks
    unfold find_aligned_peaks
    apply List.map_congr_left
    intro pr _
    have h := alignOne_eq delta_peak_scan_num pr.2 frags ([], [])
    rw [alignOne, h]
    simp only [List.nil_append]
    rw [cappedSum_eq_topSum]
    simp [List.length_map]
  · norm_num [find_aligned_peaks, alignOne, alignOneStep, cappedSum, List.insertionSort,
      List.orderedInsert]

/-- Reduction of one `search_ms1` loop iteration to the per-spectrum entries. -/
theorem searchMs1Step_eq (flex_mode : Bool) (df1 df2 df3 d1 d2 d3 : ℚ)
    (t : Ms1Traces) (s : Spectrum) :
    searchMs1Step flex_mode df1 df2 df3 d1 d2 d3 t s =
      { rt_list := t.rt_list ++ [s.rt],
        scan_num_list := t.scan_num_list ++ [s.scanNumber],
        df1_intensity_list :=
          t.df1_intensity_list ++ [df1Entry flex_mode df1 df2 df3 d1 d2 d3 s],
        df2_intensity_list :=
          t.df2_intensity_list ++
            (if flex_mode then [] else [df2EntryStrict df1 df2 df3 d1 d2 d3 s]),
        df3_intensity_list :=
          t.df3_intensity_list ++
            (if flex_mode then [] else [df3EntryStrict df1 df2 df3 d1 d2 d3 s]) } := by
  unfold searchMs1Step df1Entry df2EntryStrict df3EntryStrict flexDf1Entry strictEntries
  cases flex_mode with
  | true =>
      simp only [if_true]
      cases h1 : findDf df1 d1 s <;> simp [h1]
  | false =>
      simp only [Bool.false_eq_true, if_false]
      cases h1 : findDf df1 d1 s <;> cases h2 : findDf df2 d2 s <;>
        cases h3 : findDf df3 d3 s <;> simp [h1, h2, h3]

/-- The `search_ms1` fold appends one entry per spectrum to every recorded
list (df2/df3 only in strict mode). -/
theorem searchMs1_fold (flex_mode : Bool) (df1 df2 df3 d1 d2 d3 : ℚ) :
    ∀ (specs : List Spectrum) (t : Ms1Traces),
      specs.foldl (searchMs1Step flex_mode df1 df2 df3 d1 d2 d3) t =
        { rt_list := t.rt_list ++ specs.map Spectrum.rt,
          scan_num_list := t.scan_num_list ++ specs.map Spectrum.scanNumber,
          df1_intensity_list :=
            t.df1_intensity_list ++ specs.map (df1Entry flex_mode df1 df2 df3 d1 d2 d3),
          df2_intensity_list :=
            t.df2_intensity_list ++
              (if flex_mode then [] else specs.map (df2EntryStrict df1 df2 df3 d1 d2 d3)),
          df3_intensity_list :=
            t.df3_intensity_list ++
              (if flex_mode then [] else specs.map (df3EntryStrict df1 df2 df3 d1 d2 d3)) } := by
  intro specs
  induction specs with
  | nil => intro t; cases flex_mode <;> simp
  | cons s specs ih =>
      intro t
      rw [List.foldl_cons, ih, searchMs1Step_eq]
      cases flex_mode <;> simp

/-- The df1 intensity trace holds exactly one recorded entry per spectrum. -/
theorem search_ms1_df1_eq (flex_mode : Bool) (df1 df2 df3 d1 d2 d3 : ℚ)
    (specs : List Spectrum) :
    (search_ms1 flex_mode df1 df2 df3 d1 d2 d3 specs).df1_intensity_list =
      specs.map (df1Entry flex_mode df1 df2 df3 d1 d2 d3) := by
  rw [search_ms1, searchMs1_fold]
  simp

/-- C8: the trace returned by `search_ms1` satisfies the Trace invariant — the
rt, scan-number and df1 intensity lists all have one entry per MS1 spectrum
(recorded unconditionally in both flex and strict mode), with index `i`
referring to spectrum `i` in all of them; in strict mode the df2 and df3
intensity lists have that same length (in flex mode they stay empty). -/
theorem C8_trace_invariant (flex_mode : Bool) (df1 df2 df3 d1 d2 d3 : ℚ)
    (specs : List Spectrum) :
    search_ms1 flex_mode df1 df2 df3 d1 d2 d3 specs =
      { rt_list := specs.map Spectrum.rt,
        scan_num_list := specs.map Spectrum.scanNumber,
        df1_intensity_list := specs.map (df1Entry flex_mode df1 df2 df3 d1 d2 d3),
        df2_intensity_list :=
          if flex_mode then [] else specs.map (df2EntryStrict df1 df2 df3 d1 d2 d3),
        df3_intensity_list :=
          if flex_mode then [] else specs.map (df3EntryStrict df1 df2 df3 d1 d2 d3) } ∧
    (search_ms1 flex_mode df1 df2 df3 d1 d2 d3 specs).rt_list.length = specs.length ∧
    (search_ms1 flex_mode df1 df2 df3 d1 d2 d3 specs).scan_num_list.length = specs.length ∧
    (search_ms1 flex_mode df1 df2 df3 d1 d2 d3 specs).df1_intensity_list.length =
      specs.length ∧
    (search_ms1 flex_mode df1 df2 df3 d1 d2 d3 specs).df2_intensity_list.length =
      (if flex_mode then 0 else specs.length) ∧
    (search_ms1 flex_mode df1 df2 df3 d1 d2 d3 specs).df3_intensity_list.length =
      (if flex_mode then 0 else specs.length) := by
  have heq : search_ms1 flex_mode df1 df2 df3 d1 d2 d3 specs =
      { rt_list := specs.map Spectrum.rt,
        scan_num_list := specs.map Spectrum.scanNumber,
        df1_intensity_list := specs.map (df1Entry flex_mode df1 df2 df3 d1 d2 d3),
        df2_intensity_list :=
          if flex_mode then [] else specs.map (df2EntryStrict df1 df2 df3 d1 d2 d3),
        df3_intensity_list :=
          if flex_mode then [] else specs.map (df3EntryStrict df1 df2 df3 d1 d2 d3) } := by
    rw [search_ms1, searchMs1_fold]
    simp
  refine ⟨heq, ?_, ?_, ?_, ?_, ?_⟩ <;> rw [heq] <;> cases flex_mode <;> simp

/-- The running maximum of the charge-selection fold never decreases. -/
theorem selectCharge_fst_mono (dfOf : ℤ → ℚ) (traceOf : ℤ → List ℚ) (min_mass max_mass : ℚ) :
    ∀ (l : List ℤ) (acc : ℚ × ℤ),
      acc.1 ≤ (l.foldl (selectChargeStep dfOf traceOf min_mass max_mass) acc).1 := by
  intro l
  induction l with
  | nil => intro acc; exact le_refl _
  | cons z l ih =>
      intro acc
      rw [List.foldl_cons]
      refine le_trans ?_ (ih (selectChargeStep dfOf traceOf min_mass max_mass acc z))
      unfold selectChargeStep
      split
      · exact le_refl _
      · dsimp only
        split
        · exact le_of_lt (by assumption)
        · exact le_refl _

/-- Every non-skipped charge's trace maximum is dominated by the fold result. -/
theorem selectCharge_dominates (dfOf : ℤ → ℚ) (traceOf : ℤ → List ℚ)
    (min_mass max_mass : ℚ) :
    ∀ (l : List ℤ) (acc : ℚ × ℤ) (z : ℤ), z ∈ l →
      ¬(dfOf z < min_mass ∨ max_mass < dfOf z) →
      maxList (traceOf z) ≤ (l.foldl (selectChargeStep dfOf traceOf min_mass max_mass) acc).1 := by
  intro l
  induction l with
  | nil => intro acc z hz; cases hz
  | cons w l ih =>
      intro acc z hz hrange
      rw [List.foldl_cons]
      rcases List.mem_cons.mp hz with rfl | hz
      · refine le_trans ?_ (selectCharge_fst_mono dfOf traceOf min_mass max_mass l _)
        unfold selectChargeStep
        rw [if_neg hrange]
        dsimp only
        split
        · exact le_refl _
        · exact not_lt.mp (by assumption)
      · exact ih _ z hz hrange

/-- Provenance of the fold result: either nothing improved on the start pair,
or the result is the pair of some non-skipped charge of the list. -/
theorem selectCharge_provenance (dfOf : ℤ → ℚ) (traceOf : ℤ → List ℚ)
    (min_mass max_mass : ℚ) :
    ∀ (l : List ℤ) (acc : ℚ × ℤ),
      l.foldl (selectChargeStep dfOf traceOf min_mass max_mass) acc = acc ∨
      ∃ z ∈ l, ¬(dfOf z < min_mass ∨ max_mass < dfOf z) ∧
        l.foldl (selectChargeStep dfOf traceOf min_mass max_mass) acc =
          (maxList (traceOf z), z) := by
  intro l
  induction l with
  | nil => intro acc; exact Or.inl rfl
  | cons w l ih =>
      intro acc
      rw [List.foldl_cons]
      by_cases hrange : dfOf w < min_mass ∨ max_mass < dfOf w
      · have hstep : selectChargeStep dfOf traceOf min_mass max_mass acc w = acc := by
          unfold selectChargeStep
          rw [if_pos hrange]
        rw [hstep]
        rcases ih acc with h | ⟨z, hz, hr, he⟩
        · exact Or.inl h
        · exact Or.inr ⟨z, List.mem_cons_of_mem _ hz, hr, he⟩
      · by_cases himp : acc.1 < maxList (traceOf w)
        · have hstep : selectChargeStep dfOf traceOf min_mass max_mass acc w =
              (maxList (traceOf w), w) := by
            unfold selectChargeStep
            rw [if_neg hrange]
            dsimp only
            rw [if_pos himp]
          rw [hstep]
          rcases ih (maxList (traceOf w), w) with h | ⟨z, hz, hr, he⟩
          · exact Or.inr ⟨w, List.mem_cons_self _ _, hrange, h⟩
          · exact Or.inr ⟨z, List.mem_cons_of_mem _ hz, hr, he⟩
        · have hstep : selectChargeStep dfOf traceOf min_mass max_mass acc w = acc := by
            unfold selectChargeStep
            rw [if_neg hrange]
            dsimp only
            rw [if_neg himp]
          rw [hstep]
          rcases ih acc with h | ⟨z, hz, hr, he⟩
          · exact Or.inl h
          · exact Or.inr ⟨z, List.mem_cons_of_mem _ hz, hr, he⟩

/-- When some in-range charge has a positive trace maximum, the selection
result is a non-skipped charge of the list, carrying its own trace maximum,
and that maximum is positive. -/
theorem selectCharge_success (charge_list : List ℤ) (dfOf : ℤ → ℚ) (traceOf : ℤ → List ℚ)
    (min_mass max_mass : ℚ)
    (h : ∃ z ∈ charge_list, (min_mass ≤ dfOf z ∧ dfOf z ≤ max_mass) ∧
      0 < maxList (traceOf z)) :
    (selectCharge charge_list dfOf traceOf min_mass max_mass).2 ∈ charge_list ∧
    min_mass ≤ dfOf (selectCharge charge_list dfOf traceOf min_mass max_mass).2 ∧
    dfOf (selectCharge charge_list dfOf traceOf min_mass max_mass).2 ≤ max_mass ∧
    (selectCharge charge_list dfOf traceOf min_mass max_mass).1 =
      maxList (traceOf (selectCharge charge_list dfOf traceOf min_mass max_mass).2) ∧
    0 < (selectCharge charge_list dfOf traceOf min_mass max_mass).1 := by
  obtain ⟨z0, hz0, hr0, hpos0⟩ := h
  have hr0' : ¬(dfOf z0 < min_mass ∨ max_mass < dfOf z0) := by
    push_neg
    exact ⟨hr0.1, hr0.2⟩
  have hfstpos : 0 < (selectCharge charge_list dfOf traceOf min_mass max_mass).1 :=
    lt_of_lt_of_le hpos0
      (selectCharge_dominates dfOf traceOf min_mass max_mass charge_list (0, 0) z0 hz0 hr0')
  rcases selectCharge_provenance dfOf traceOf min_mass max_mass charge_list (0, 0) with
    h | ⟨z, hz, hr, he⟩
  · rw [selectCharge] at hfstpos
    rw [h] at hfstpos
    exact absurd hfstpos (by norm_num)
  · have he' : selectCharge charge_list dfOf traceOf min_mass max_mass =
        (maxList (traceOf z), z) := he
    rw [he']
    push_neg at hr
    exact ⟨hz, hr.1, hr.2, rfl, by rw [he'] at hfstpos; exact hfstpos⟩

/-- C4: charge selection iterates the charge list, skips entirely every charge
whose `df1` falls outside `[min_mass, max_mass]`, and selects a non-skipped
charge whose `df1` trace maximum dominates every other non-skipped charge's
trace maximum (`dfOf` gives each charge's `df1`, `traceOf` its `df1` intensity
trace, as produced by the per-charge `search_ms1` calls). -/
theorem C4_charge_selection (charge_list : List ℤ) (dfOf : ℤ → ℚ) (traceOf : ℤ → List ℚ)
    (min_mass max_mass : ℚ)
    (h : ∃ z ∈ charge_list, (min_mass ≤ dfOf z ∧ dfOf z ≤ max_mass) ∧
      0 < maxList (traceOf z)) :
    (selectCharge charge_list dfOf traceOf min_mass max_mass).2 ∈ charge_list ∧
    min_mass ≤ dfOf (selectCharge charge_list dfOf traceOf min_mass max_mass).2 ∧
    dfOf (selectCharge charge_list dfOf traceOf min_mass max_mass).2 ≤ max_mass ∧
    ∀ z ∈ charge_list, min_mass ≤ dfOf z → dfOf z ≤ max_mass →
      maxList (traceOf z) ≤
        maxList (traceOf (selectCharge charge_list dfOf traceOf min_mass max_mass).2) := by
  obtain ⟨hmem, hlo, hhi, hfst, _⟩ :=
    selectCharge_success charge_list dfOf traceOf min_mass max_mass h
  refine ⟨hmem, hlo, hhi, ?_⟩
  intro z hz hzlo hzhi
  have hr : ¬(dfOf z < min_mass ∨ max_mass < dfOf z) := by
    push_neg
    exact ⟨hzlo, hzhi⟩
  rw [← hfst]
  exact selectCharge_dominates dfOf traceOf min_mass max_mass charge_list (0, 0) z hz hr

/-- Witness for C4: charge 2 in mass range with trace maximum 500 is selected
over charge 3, whose `df1` (2000) is out of range despite its larger trace
maximum 800 — mirroring the specification's example. -/
theorem C4_charge_selection_witness :
    (selectCharge [2, 3] (fun z => if z = 2 then 50 else 2000)
        (fun z => if z = 2 then [500] else [800]) 0 1000).2 ∈ [2, 3] ∧
    (0 : ℚ) ≤ (fun z => if z = 2 then (50 : ℚ) else 2000)
        (selectCharge [2, 3] (fun z => if z = 2 then 50 else 2000)
          (fun z => if z = 2 then [500] else [800]) 0 1000).2 ∧
    (fun z => if z = 2 then (50 : ℚ) else 2000)
        (selectCharge [2, 3] (fun z => if z = 2 then 50 else 2000)
          (fun z => if z = 2 then [500] else [800]) 0 1000).2 ≤ 1000 ∧
    ∀ z ∈ [(2 : ℤ), 3], (0 : ℚ) ≤ (if z = 2 then (50 : ℚ) else 2000) →
      (if z = 2 then (50 : ℚ) else 2000) ≤ 1000 →
      maxList (if z = 2 then [500] else [800]) ≤
        maxList ((fun z => if z = 2 then [(500 : ℚ)] else [800])
          (selectCharge [2, 3] (fun z => if z = 2 then 50 else 2000)
            (fun z => if z = 2 then [500] else [800]) 0 1000).2) :=
  C4_charge_selection [2, 3] (fun z => if z = 2 then 50 else 2000)
    (fun z => if z = 2 then [500] else [800]) 0 1000
    ⟨2, by norm_num, by norm_num, by norm_num [maxList]⟩

/-- The start value of Python's `max` fold is dominated by the result. -/
theorem le_foldl_max : ∀ (xs : List ℚ) (x : ℚ), x ≤ xs.foldl max x := by
  intro xs
  induction xs with
  | nil => intro x; exact le_refl x
  | cons y ys ih =>
      intro x
      rw [List.foldl_cons]
      exact le_trans (le_max_left x y) (ih (max x y))

/-- A nonempty list of positive rationals has a positive Python maximum. -/
theorem maxList_pos (l : List ℚ) (hne : l ≠ []) (hpos : ∀ x ∈ l, 0 < x) :
    0 < maxList l := by
  cases l with
  | nil => exact absurd rfl hne
  | cons x xs =>
      exact lt_of_lt_of_le (hpos x (List.mem_cons_self _ _)) (le_foldl_max xs x)

/-- A matched intensity returned by `findDf` is one of the spectrum's peak
intensities. -/
theorem findDf_mem (df delta : ℚ) (s : Spectrum) (v : ℚ)
    (h : findDf df delta s = some v) : ∃ p ∈ s.peaks, v = p.2 := by
  rw [findDf] at h
  cases hh : (s.peaks.filter (fun p => decide (|df - p.1| ≤ delta))).head? with
  | none => rw [hh] at h; cases h
  | some pr =>
      rw [hh] at h
      simp only [Option.map_some', Option.some.injEq] at h
      exact ⟨pr, List.mem_of_mem_filter (List.mem_of_mem_head? hh), h.symm⟩

/-- Every recorded df1 intensity is the sentinel 1 or a peak intensity of its
spectrum, in either mode. -/
theorem df1Entry_cases (flex_mode : Bool) (df1 df2 df3 d1 d2 d3 : ℚ) (s : Spectrum) :
    df1Entry flex_mode df1 df2 df3 d1 d2 d3 s = 1 ∨
    ∃ p ∈ s.peaks, df1Entry flex_mode df1 df2 df3 d1 d2 d3 s = p.2 := by
  unfold df1Entry
  cases flex_mode with
  | true =>
      simp only [if_true]
      unfold flexDf1Entry
      cases h1 : findDf df1 d1 s with
      | none => exact Or.inl rfl
      | some v =>
          obtain ⟨p, hp, hv⟩ := findDf_mem df1 d1 s v h1
          exact Or.inr ⟨p, hp, hv⟩
  | false =>
      simp only [Bool.false_eq_true, if_false]
      unfold strictEntries
      cases h1 : findDf df1 d1 s with
      | none =>
          cases h2 : findDf df2 d2 s <;> cases h3 : findDf df3 d3 s <;> exact Or.inl rfl
      | some v1 =>
          cases h2 : findDf df2 d2 s with
          | none => cases h3 : findDf df3 d3 s <;> exact Or.inl rfl
          | some v2 =>
              cases h3 : findDf df3 d3 s with
              | none => exact Or.inl rfl
              | some v3 =>
                  obtain ⟨p, hp, hv⟩ := findDf_mem df1 d1 s v1 h1
                  exact Or.inr ⟨p, hp, hv⟩

/-- C10 (amended): if the MS1 spectrum list is nonempty, some candidate charge
(candidate charges are nonzero) has its `df1` within `[min_mass, max_mass]`,
and every peak intensity occurring in the MS1 spectra is positive, then charge
selection succeeds — the fatal `z_fin == 0` (`NoViableCharge`) branch is not
reached: every spectrum contributes a df1 entry that is either the sentinel 1
or a matched (positive) peak intensity, so the charge's trace maximum is
positive.  (Without the positivity assumption the branch is reachable: a
matched intensity may be 0, below the sentinel — see the counterexample.) -/
theorem C10_amended (flex_mode positive : Bool) (cpd_list : List ℚ)
    (adduct_mass addon_mass ppm_ms1 min_mass max_mass : ℚ) (charge_list : List ℤ)
    (specs : List Spectrum)
    (hne : specs ≠ [])
    (hz : ∃ z ∈ charge_list,
      min_mass ≤ df1Calc positive cpd_list adduct_mass addon_mass (z : ℚ) ∧
      df1Calc positive cpd_list adduct_mass addon_mass (z : ℚ) ≤ max_mass)
    (hpos : ∀ s ∈ specs, ∀ p ∈ s.peaks, 0 < p.2)
    (h0 : (0 : ℤ) ∉ charge_list) :
    (batchSelectCharge flex_mode positive cpd_list adduct_mass addon_mass ppm_ms1
      min_mass max_mass charge_list specs).2 ≠ 0 := by
  obtain ⟨z0, hz0, hr0⟩ := hz
  have htrace : ∀ z : ℤ,
      (searchMs1Z flex_mode positive cpd_list adduct_mass addon_mass ppm_ms1 specs
        z).df1_intensity_list =
      specs.map (df1Entry flex_mode
        (df1Calc positive cpd_list adduct_mass addon_mass (z : ℚ))
        (df2Calc positive cpd_list adduct_mass addon_mass (z : ℚ))
        (df3Calc positive cpd_list adduct_mass addon_mass (z : ℚ))
        (ppm_ms1 * df1Calc positive cpd_list adduct_mass addon_mass (z : ℚ) / 1000000)
        (ppm_ms1 * df2Calc positive cpd_list adduct_mass addon_mass (z : ℚ) / 1000000)
        (ppm_ms1 * df3Calc positive cpd_list adduct_mass addon_mass (z : ℚ) / 1000000)) := by
    intro z
    simp only [searchMs1Z]
    rw [search_ms1_df1_eq]
  have hmax : 0 < maxList ((searchMs1Z flex_mode positive cpd_list adduct_mass addon_mass
      ppm_ms1 specs z0).df1_intensity_list) := by
    rw [htrace z0]
    apply maxList_pos
    · intro hmap
      exact hne (List.map_eq_nil_iff.mp hmap)
    · intro x hx
      obtain ⟨s, hs, hxe⟩ := List.mem_map.mp hx
      rcases df1Entry_cases flex_mode _ _ _ _ _ _ s with hc | ⟨p, hp, hc⟩
      · rw [← hxe, hc]; norm_num
      · rw [← hxe, hc]; exact hpos s hs p hp
  have hsucc := selectCharge_success charge_list
    (fun z => df1Calc positive cpd_list adduct_mass addon_mass (z : ℚ))
    (fun z =>
      (searchMs1Z flex_mode positive cpd_list adduct_mass addon_mass ppm_ms1
        specs z).df1_intensity_list)
    min_mass max_mass ⟨z0, hz0, ⟨hr0.1, hr0.2⟩, hmax⟩
  rw [batchSelectCharge]
  intro hzero
  have hmem := hsucc.1
  rw [hzero] at hmem
  exact h0 hmem

/-- Witness for C10 (amended): flex mode, one spectrum whose single peak has
intensity 5, target in range for charge 1 — selection returns a nonzero charge. -/
theorem C10_amended_witness :
    (batchSelectCharge true true [0, 0, 0, 0, 0] 2 0 0 0 100 [1]
      [⟨0, 0, [(3, 5)]⟩]).2 ≠ 0 :=
  C10_amended true true [0, 0, 0, 0, 0] 2 0 0 0 100 [1] [⟨0, 0, [(3, 5)]⟩]
    (by norm_num)
    ⟨1, by norm_num, by norm_num [df1Calc, dotProd, const_list, water_mass],
      by norm_num [df1Calc, dotProd, const_list, water_mass]⟩
    (by intro s hs p hp
        simp only [List.mem_singleton] at hs
        subst hs
        simp only [List.mem_singleton] at hp
        subst hp
        norm_num)
    (by norm_num)

/-- C10 (counterexample to the claim as stated): a nonempty MS1 spectrum list
and an in-range candidate charge do not guarantee selection success.  Flex
mode, ppm 0, charge 1: `df1 = (0 + 18.01056 + 1.00728·1 + 0)/1 = 19.01784`,
which is in `[0, 100]`; the single spectrum contains exactly that mass with
intensity 0, so the recorded df1 entry is the matched intensity 0 — not the
sentinel 1 — the trace maximum is 0, and `z_fin` stays 0 (the fatal
`NoViableCharge` branch is reached). -/
theorem C10_counterexample :
    ([(⟨0, 0, [(19.01784, 0)]⟩ : Spectrum)] ≠ []) ∧
    (1 : ℤ) ∈ [(1 : ℤ)] ∧
    0 ≤ df1Calc true [0, 0, 0, 0, 0] 1.00728 0 ((1 : ℤ) : ℚ) ∧
    df1Calc true [0, 0, 0, 0, 0] 1.00728 0 ((1 : ℤ) : ℚ) ≤ 100 ∧
    (batchSelectCharge true true [0, 0, 0, 0, 0] 1.00728 0 0 0 100 [1]
      [⟨0, 0, [(19.01784, 0)]⟩]).2 = 0 := by
  refine ⟨by simp, by simp, ?_, ?_, ?_⟩
  · norm_num [df1Calc, dotProd, const_list, water_mass]
  · norm_num [df1Calc, dotProd, const_list, water_mass]
  · norm_num [batchSelectCharge, selectCharge, selectChargeStep, searchMs1Z, search_ms1,
      searchMs1Step, findDf, df1Calc, df2Calc, df3Calc, dotProd, const_list, water_mass,
      maxList]

/-- One dedup iteration only removes peaks. -/
theorem cpdStep_subset (pl : List ℕ) (rl il : List ℚ) (ret : List ℕ) (i : ℕ) :
    checkPeaksDistanceStep pl rl il ret i ⊆ ret := by
  simp only [checkPeaksDistanceStep]
  split
  · split
    · exact (List.erase_sublist _ _).subset
    · exact (List.erase_sublist _ _).subset
  · exact fun _ h => h

/-- The whole dedup pass only removes peaks. -/
theorem cpdFold_subset (pl : List ℕ) (rl il : List ℚ) :
    ∀ (is : List ℕ) (ret : List ℕ),
      is.foldl (checkPeaksDistanceStep pl rl il) ret ⊆ ret := by
  intro is
  induction is with
  | nil => intro ret _ h; exact h
  | cons j is ih =>
      intro ret
      rw [List.foldl_cons]
      exact fun a ha => cpdStep_subset pl rl il ret j (ih _ ha)

/-- One dedup iteration preserves distinctness of the retained peaks. -/
theorem cpdStep_nodup (pl : List ℕ) (rl il : List ℚ) (ret : List ℕ) (i : ℕ)
    (h : ret.Nodup) : (checkPeaksDistanceStep pl rl il ret i).Nodup := by
  simp only [checkPeaksDistanceStep]
  split
  · split
    · exact (List.erase_sublist _ _).nodup h
    · exact (List.erase_sublist _ _).nodup h
  · exact h

/-- The whole dedup pass preserves distinctness. -/
theorem cpdFold_nodup (pl : List ℕ) (rl il : List ℚ) :
    ∀ (is : List ℕ) (ret : List ℕ), ret.Nodup →
      (is.foldl (checkPeaksDistanceStep pl rl il) ret).Nodup := by
  intro is
  induction is with
  | nil => intro ret h; exact h
  | cons j is ih =>
      intro ret h
      rw [List.foldl_cons]
      exact ih _ (cpdStep_nodup pl rl il ret j h)

/-- Once the pass examines a too-close adjacent pair, the pair's loser (the
lower-intensity peak, the earlier one on ties) is absent from the final
retained set — so the pair cannot survive jointly. -/
theorem cpd_loser_not_mem (pl : List ℕ) (rl il : List ℚ) (i : ℕ) :
    ∀ (is : List ℕ) (ret : List ℕ), ret.Nodup → i ∈ is →
      |rl.getD (pl.getD (i + 1) 0) 0 - rl.getD (pl.getD i 0) 0| < 0.2 →
      ¬(pl.getD i 0 ∈ is.foldl (checkPeaksDistanceStep pl rl il) ret ∧
        pl.getD (i + 1) 0 ∈ is.foldl (checkPeaksDistanceStep pl rl il) ret) := by
  intro is
  induction is with
  | nil => intro ret _ h; cases h
  | cons j is ih =>
      intro ret hnd hmem hclose hboth
      rw [List.foldl_cons] at hboth
      by_cases hij : i = j
      · subst hij
        by_cases hdi : 0 ≤ il.getD (pl.getD (i + 1) 0) 0 - il.getD (pl.getD i 0) 0
        · have hnot : pl.getD i 0 ∉ checkPeaksDistanceStep pl rl il ret i := by
            simp only [checkPeaksDistanceStep]
            rw [if_pos hclose, if_pos hdi]
            exact hnd.not_mem_erase
          exact hnot (cpdFold_subset pl rl il is _ hboth.1)
        · have hnot : pl.getD (i + 1) 0 ∉ checkPeaksDistanceStep pl rl il ret i := by
            simp only [checkPeaksDistanceStep]
            rw [if_pos hclose, if_neg hdi]
            exact hnd.not_mem_erase
          exact hnot (cpdFold_subset pl rl il is _ hboth.2)
      · have hmem' : i ∈ is := by
          rcases List.mem_cons.mp hmem with h | h
          · exact absurd h hij
          · exact h
        exact ih (checkPeaksDistanceStep pl rl il ret j)
          (cpdStep_nodup pl rl il ret j hnd) hmem' hclose hboth

/-- The dedup output of a distinct peak list is strictly sorted. -/
theorem check_peaks_distance_sorted (pl : List ℕ) (rl il : List ℚ) (delta : ℚ)
    (h : pl.Nodup) :
    List.Sorted (· < ·) (check_peaks_distance pl rl il delta) := by
  rw [check_peaks_distance]
  have hnd : ((List.range (pl.length - 1)).foldl
      (checkPeaksDistanceStep pl rl il) pl).Nodup :=
    cpdFold_nodup pl rl il (List.range (pl.length - 1)) pl h
  have hs := List.sorted_insertionSort (· ≤ ·)
    ((List.range (pl.length - 1)).foldl (checkPeaksDistanceStep pl rl il) pl)
  have hnd2 : (List.insertionSort (· ≤ ·)
      ((List.range (pl.length - 1)).foldl (checkPeaksDistanceStep pl rl il) pl)).Nodup :=
    ((List.perm_insertionSort (· ≤ ·) _).nodup_iff).mpr hnd
  exact (hs.and hnd2).imp fun hab => lt_of_le_of_ne hab.1 hab.2

/-- C9 (counterexample to the claim as stated): peaks at indices 0, 1, 2 with
retention times 0, 0.1, 0.19 and smoothed intensities 100, 50, 60 (`delta_rt
= 0.2`).  The single pass first drops peak 1 (less intense than peak 0), and
the pair (1, 2) then removes nobody — peak 1 is already gone — so peaks 0 and
2 both survive although their retention times differ by only 0.19 < 0.2: the
retained peaks are *not* pairwise separated by `delta_rt`. -/
theorem C9_counterexample :
    check_peaks_distance [0, 1, 2] [0, 1/10, 19/100] [100, 50, 60] 0.2 = [0, 2] ∧
    |(19 : ℚ)/100 - 0| < 0.2 := by
  constructor
  · norm_num [check_peaks_distance, checkPeaksDistanceStep, List.insertionSort,
      List.orderedInsert, List.range, List.range.loop, abs_of_nonneg]
  · rw [abs_of_nonneg (by norm_num)]
    norm_num

/-- C9 (amended): for a distinct input peak list, the final returned peak-index
list is strictly increasing, and no two retained peaks that were *adjacent in
the input list* lie closer than the hardcoded 0.2 retention-time gap (the
source compares against the literal 0.2, not `delta_rt`, and peaks that only
become adjacent after a removal may survive closer than that — see the
counterexample). -/
theorem C9_amended (pl : List ℕ) (rl il : List ℚ) (delta : ℚ) (h : pl.Nodup) :
    List.Sorted (· < ·) (check_peaks_distance pl rl il delta) ∧
    ∀ i, i + 1 < pl.length →
      pl.getD i 0 ∈ check_peaks_distance pl rl il delta →
      pl.getD (i + 1) 0 ∈ check_peaks_distance pl rl il delta →
      (0.2 : ℚ) ≤ |rl.getD (pl.getD (i + 1) 0) 0 - rl.getD (pl.getD i 0) 0| := by
  refine ⟨check_peaks_distance_sorted pl rl il delta h, ?_⟩
  intro i hi h1 h2
  by_contra hlt
  push_neg at hlt
  rw [check_peaks_distance] at h1 h2
  have hmem : i ∈ List.range (pl.length - 1) := List.mem_range.mpr (by omega)
  exact cpd_loser_not_mem pl rl il i (List.range (pl.length - 1)) pl h hmem hlt
    ⟨(List.perm_insertionSort (· ≤ ·) _).mem_iff.mp h1,
     (List.perm_insertionSort (· ≤ ·) _).mem_iff.mp h2⟩

/-- Witness for C9 (amended) on peaks [0, 1] with well-separated retention
times 0 and 1. -/
theorem C9_amended_witness :
    List.Sorted (· < ·) (check_peaks_distance [0, 1] [0, 1] [5, 5] 0.2) ∧
    ∀ i, i + 1 < ([0, 1] : List ℕ).length →
      ([0, 1] : List ℕ).getD i 0 ∈ check_peaks_distance [0, 1] [0, 1] [5, 5] 0.2 →
      ([0, 1] : List ℕ).getD (i + 1) 0 ∈ check_peaks_distance [0, 1] [0, 1] [5, 5] 0.2 →
      (0.2 : ℚ) ≤
        |([0, 1] : List ℚ).getD (([0, 1] : List ℕ).getD (i + 1) 0) 0 -
          ([0, 1] : List ℚ).getD (([0, 1] : List ℕ).getD i 0) 0| :=
  C9_amended [0, 1] [0, 1] [5, 5] 0.2 (by norm_num)

/-- C2 (code evaluation at the failing input): with configured `delta_rt =
0.5`, adjacent retained peaks 0.3 time units apart — strictly closer than
`delta_rt` — are *both kept*, because the source's loop compares the gap
against the literal 0.2 (source line 226) instead of its `delta` parameter;
the claim (and the source's own parameter documentation) would drop the
less intense earlier peak. -/
theorem C2_delta_ignored :
    check_peaks_distance [0, 1] [0, 3/10] [10, 20] (1/2) = [0, 1] ∧
    |(3 : ℚ)/10 - 0| < 1/2 := by
  constructor
  · norm_num [check_peaks_distance, checkPeaksDistanceStep, List.insertionSort,
      List.orderedInsert, List.range, List.range.loop, abs_of_nonneg]
  · rw [abs_of_nonneg (by norm_num)]
    norm_num

/-- C1 (code evaluation at the failing input): three target fragments (100,
200, 300 with exact-match tolerances), `df_cnt_min = 3`, and one spectrum
containing only fragments 100 and 200.  Only 2 of 3 fragments are found, so
per the claim (and the source's own `df_cnt_min` documentation) the spectrum
should contribute nothing; but `df_idx_dict` receives an entry (-100) even
for the absent fragment, `len(df_idx_dict)` is 3, the `< df_cnt_min` gate does
not fire, and the two found fragments are credited. -/
theorem C1_found_count_not_gated :
    extract_info_ms2 [100, 200, 300] [0, 0, 0] [⟨7, 5, [(100, 50), (200, 60)]⟩] 3 =
      ⟨[(100, [50]), (200, [60])], [(100, [7]), (200, [7])],
        [(100, [5]), (200, [5])]⟩ := by
  norm_num [extract_info_ms2, extractInfoMs2Step, buildDfIdxDict, updAssoc, dictAppend,
    List.range, List.range.loop]

end GlycanDIA
